import Mathlib

/-!
# Verification of the attendance CRUD service

Shallow embedding of `src/app.py`, a Flask + SQLite service with four tables
(classes, students, periods, attendance) and create/read endpoints plus one
aggregate attendance query.  The relational store is modelled as lists of
rows; each endpoint becomes a pure function from a `DB` state (and the
request data) to a new `DB` state and a response.  SQLite specifics that
matter are modelled explicitly:

* primary-key uniqueness raises `IntegrityError`, rejected atomically;
* `periods.period_id` is `INTEGER PRIMARY KEY AUTOINCREMENT`, an increasing
  counter starting at 1, modelled by the `nextPeriodId` field;
* foreign keys are declared but NOT enforced (the code never issues
  `PRAGMA foreign_keys = ON`, and Python's sqlite3 leaves it off by default),
  so orphaned rows insert successfully;
* `INSERT OR REPLACE` on the composite key `(period_id, reg_no)` deletes any
  conflicting row and appends the new one (upsert);
* each route runs its statements inside one implicit transaction which
  becomes durable only at `conn.commit()`; if an exception escapes before
  the commit, the pending changes are discarded when the connection is
  closed / garbage-collected, so the store is left unchanged.

Python floats are modelled as exact rationals; `round(x, 2)` is modelled as
round-half-to-even at two decimal places (`round2`).
-/

namespace AttendanceApp

/-- A row of `classes (class_id INTEGER PRIMARY KEY, class_name TEXT NOT NULL,
department TEXT)`.  `add_class` fills `department` with `""` when the request
omits it (`data.get("department", "")`). -/
structure SchoolClass where
  class_id : Int
  class_name : String
  department : String
deriving DecidableEq

/-- A row of `students (reg_no TEXT PRIMARY KEY, student_name TEXT NOT NULL,
class_id INTEGER NOT NULL)`.  The foreign key to `classes` is declared but not
enforced at runtime. -/
structure Student where
  reg_no : String
  student_name : String
  class_id : Int
deriving DecidableEq

/-- A row of `periods (period_id INTEGER PRIMARY KEY AUTOINCREMENT, class_id,
subject_name, period_date, period_number)`. -/
structure Period where
  period_id : Int
  class_id : Int
  subject_name : String
  period_date : String
  period_number : Int
deriving DecidableEq

/-- A row of `attendance (period_id INTEGER, reg_no TEXT, is_present INTEGER,
PRIMARY KEY (period_id, reg_no))`.  `is_present` is stored as an SQLite
INTEGER (1 = present in the aggregate query). -/
structure AttRecord where
  period_id : Int
  reg_no : String
  is_present : Int
deriving DecidableEq

/-- The durable store: the four tables created by `init_db`, plus the
AUTOINCREMENT counter for `periods.period_id`.  SQLite AUTOINCREMENT assigns
1 to the first inserted row and a strictly larger id to every later insert,
which is exactly a counter. -/
structure DB where
  classes : List SchoolClass
  students : List Student
  periods : List Period
  nextPeriodId : Int
  attendance : List AttRecord
deriving DecidableEq

/-- The store right after `init_db` on a fresh database file. -/
def emptyDB : DB := ⟨[], [], [], 1, []⟩

/-- Error kinds surfaced to callers: duplicate primary key (HTTP 400),
missing student (HTTP 404), undecodable bulk-import payload (HTTP 400). -/
inductive ApiError
  | DuplicateKey
  | NotFound
  | DecodeFailure
deriving DecidableEq

/-- Model of `add_class` (POST `/api/classes`): `INSERT INTO classes ...`; a duplicate
`class_id` raises `IntegrityError`, which the route maps to a 400 error, and
the rejected insert leaves the store unchanged. -/
def add_class (db : DB) (cid : Int) (cname dept : String) : DB × Except ApiError Unit :=
  if db.classes.any (fun c => c.class_id == cid) then
    (db, .error .DuplicateKey)
  else
    ({ db with classes := db.classes ++ [⟨cid, cname, dept⟩] }, .ok ())

/-- Model of `add_student` (POST `/api/students`): `INSERT INTO students ...`; a
duplicate `reg_no` raises `IntegrityError` (400, store unchanged).  The
declared foreign key on `class_id` is not enforced, so no existence check
against `classes` is performed. -/
def add_student (db : DB) (rn sname : String) (cid : Int) : DB × Except ApiError Unit :=
  if db.students.any (fun s => s.reg_no == rn) then
    (db, .error .DuplicateKey)
  else
    ({ db with students := db.students ++ [⟨rn, sname, cid⟩] }, .ok ())

/-- Model of `get_students` (GET `/api/students`): with a `class_id` query parameter it
runs `SELECT ... WHERE class_id = ?`, otherwise `SELECT ...` over the whole
table. -/
def get_students (db : DB) (filter_id : Option Int) : List Student :=
  match filter_id with
  | some cid => db.students.filter (fun s => s.class_id == cid)
  | none => db.students

/-- Model of `create_period` (POST `/api/periods`): inserts a row letting AUTOINCREMENT
pick `period_id`, and returns `cursor.lastrowid` (the fresh id) to the
caller. -/
def create_period (db : DB) (cid : Int) (subj pdate : String) (pnum : Int) : DB × Int :=
  let pid := db.nextPeriodId
  ({ db with
      periods := db.periods ++ [⟨pid, cid, subj, pdate, pnum⟩],
      nextPeriodId := pid + 1 },
   pid)

/-- Input of one `create_period` request. -/
structure PeriodInput where
  class_id : Int
  subject_name : String
  period_date : String
  period_number : Int
deriving DecidableEq

/-- A sequence of successful `create_period` calls, returning the list of
`period_id` values handed back to the caller, in call order. -/
def create_periods : DB → List PeriodInput → DB × List Int
  | db, [] => (db, [])
  | db, i :: is =>
    let r := create_period db i.class_id i.subject_name i.period_date i.period_number
    let rest := create_periods r.1 is
    (rest.1, r.2 :: rest.2)

/-- Does an attendance row have the given composite key `(period_id, reg_no)`? -/
def isPair (pid : Int) (rn : String) (r : AttRecord) : Bool :=
  r.period_id == pid && r.reg_no == rn

/-- One `INSERT OR REPLACE INTO attendance` statement: SQLite deletes any row
with the same composite key `(period_id, reg_no)` and inserts the new row. -/
def upsert_attendance (atts : List AttRecord) (pid : Int) (rn : String) (pres : Int) :
    List AttRecord :=
  atts.filter (fun r => !(isPair pid rn r)) ++ [⟨pid, rn, pres⟩]

/-- One element of the `"attendance"` array of a `mark_attendance` request:
either a well-formed `{"reg_no": ..., "is_present": ...}` object, or a
malformed one (e.g. a dict missing one of the two keys, which makes
`record["reg_no"]` / `record["is_present"]` raise inside the loop). -/
inductive MarkItem
  | good (reg_no : String) (is_present : Int)
  | malformed
deriving DecidableEq

/-- Is the batch item well formed? -/
def MarkItem.isGood : MarkItem → Bool
  | .good _ _ => true
  | .malformed => false

/-- The loop body of `mark_attendance`: executes the upserts left to right on
the connection's in-transaction view; a malformed item raises (KeyError /
InterfaceError) and aborts the loop, yielding `none`. -/
def applyMarks (pid : Int) : List MarkItem → List AttRecord → Option (List AttRecord)
  | [], atts => some atts
  | .malformed :: _, _ => none
  | .good rn pres :: rest, atts => applyMarks pid rest (upsert_attendance atts pid rn pres)

/-- Model of `mark_attendance` (POST `/api/attendance`): runs the upsert loop and then
`conn.commit()`.  All upserts live in one implicit SQLite transaction: if a
malformed item raises mid-loop, the commit is never reached, the route
errors (HTTP 500), and the uncommitted upserts are discarded when the
connection is finalized — so the store is unchanged.  Returns the resulting
store and whether the request succeeded. -/
def mark_attendance (db : DB) (pid : Int) (items : List MarkItem) : DB × Bool :=
  match applyMarks pid items db.attendance with
  | some atts => ({ db with attendance := atts }, true)
  | none => (db, false)

/-- The `is_present` value of the last well-formed item for `rn` in a batch
(`none` when no well-formed item mentions `rn`).  Later items overwrite
earlier ones, so this is the value the final upsert for `rn` writes. -/
def lastMark : List MarkItem → String → Option Int
  | [], _ => none
  | it :: rest, rn =>
    match lastMark rest rn with
    | some v => some v
    | none =>
      match it with
      | .good r v => if r == rn then some v else none
      | .malformed => none

/-- Round half to even to the nearest integer, the rounding Python's `round`
uses (exact rational model of the float computation). -/
def roundHalfEven (q : ℚ) : ℤ :=
  if q - ⌊q⌋ < 1 / 2 then ⌊q⌋
  else if (1 : ℚ) / 2 < q - ⌊q⌋ then ⌊q⌋ + 1
  else if ⌊q⌋ % 2 = 0 then ⌊q⌋ else ⌊q⌋ + 1

/-- Python's `round(x, 2)`: round to two decimal places, ties to even. -/
def round2 (q : ℚ) : ℚ := (roundHalfEven (q * 100) : ℚ) / 100

/-- The success payload of GET `/api/attendance/<reg_no>`. -/
structure AttendanceSummary where
  reg_no : String
  student_name : String
  total_classes : Nat
  attended_classes : Nat
  attendance_percentage : ℚ
deriving DecidableEq

/-- Model of `get_overall_attendance` (GET `/api/attendance/<reg_no>`): the SQL left
join groups the (unique) student row with its attendance rows, so
`COUNT(a.period_id)` is the number of attendance rows carrying this `reg_no`
(0 when only the null-extended row exists) and the `SUM(CASE WHEN
a.is_present = 1 ...)` counts those rows whose `is_present` equals 1.  No
student row means no result row, hence 404.  The percentage is
`round(attended * 100.0 / total, 2)` when `total > 0`, else `0.0`. -/
def get_overall_attendance (db : DB) (rn : String) : Except ApiError AttendanceSummary :=
  match db.students.find? (fun s => s.reg_no == rn) with
  | none => .error .NotFound
  | some s =>
    let recs := db.attendance.filter (fun a => a.reg_no == rn)
    let total := recs.length
    let attended := (recs.filter (fun a => a.is_present == 1)).length
    let pct : ℚ := if 0 < total then round2 ((attended : ℚ) * 100 / (total : ℚ)) else 0
    .ok ⟨s.reg_no, s.student_name, total, attended, pct⟩

/-- Python's `str.strip()`: drop leading and trailing whitespace.  Defined
over the underlying character list so that it evaluates by kernel
reduction. -/
def pyStrip (s : String) : String :=
  ⟨((s.data.dropWhile Char.isWhitespace).reverse.dropWhile Char.isWhitespace).reverse⟩

/-- Python `int(s)` on an already-stripped string: an optional sign followed
by one or more decimal digits (Python's underscore-grouped literals are not
exercised by this service's CSV rows and are left out). -/
def digitsToNat : List Char → Option Nat
  | [] => none
  | cs =>
    if cs.all Char.isDigit then
      some (cs.foldl (fun n c => 10 * n + (c.toNat - 48)) 0)
    else none

/-- Model of `int(row[2].strip())` in `bulk_add_students`: `none` models a
`ValueError`. -/
def pyInt (s : String) : Option Int :=
  match s.toList with
  | '-' :: rest => (digitsToNat rest).map (fun n => -(n : Int))
  | '+' :: rest => (digitsToNat rest).map (fun n => (n : Int))
  | cs => (digitsToNat cs).map (fun n => (n : Int))

/-- The decoded content of a bulk-import upload: either the bytes fail to
decode as UTF-8 (`file.stream.read().decode("UTF8")` raises), or they decode
into CSV rows, each a list of string fields.  CSV mechanics are an external
collaborator; rows arrive already split into fields. -/
inductive FileContent
  | undecodable
  | rows (rs : List (List String))
deriving DecidableEq

/-- The response of `bulk_add_students`: a single error, or the
`{added, skipped}` tally. -/
inductive BulkResult
  | failed (e : ApiError)
  | counts (added skipped : Nat)
deriving DecidableEq

/-- The per-row body of the `bulk_add_students` loop.  A row with fewer than 3
fields is skipped silently (`continue`, no count).  Otherwise the row is
inserted with fields stripped and `class_id` parsed by `int`; a `ValueError`
from `int` or an `IntegrityError` from a duplicate `reg_no` (against the
table or an earlier row of the same batch, both visible on this connection)
counts as skipped; a successful insert counts as added. -/
def bulk_row_step (st : DB × Nat × Nat) (row : List String) : DB × Nat × Nat :=
  if row.length < 3 then st
  else
    let rn := pyStrip (row.getD 0 "")
    let sname := pyStrip (row.getD 1 "")
    match pyInt (pyStrip (row.getD 2 "")) with
    | none => (st.1, st.2.1, st.2.2 + 1)
    | some cid =>
      if st.1.students.any (fun s => s.reg_no == rn) then
        (st.1, st.2.1, st.2.2 + 1)
      else
        ({ st.1 with students := st.1.students ++ [⟨rn, sname, cid⟩] },
         st.2.1 + 1, st.2.2)

/-- Model of `bulk_add_students` (POST `/api/students/bulk`): if the payload cannot be
decoded as text, the route returns a single 400 error before the database is
even opened, so the store is unchanged and no counts are reported.
Otherwise it skips the header row, folds the per-row step over the data rows
(per-row errors are caught, so the loop always reaches `conn.commit()`), and
reports `{added, skipped}`. -/
def bulk_add_students (db : DB) (content : FileContent) : DB × BulkResult :=
  match content with
  | .undecodable => (db, .failed .DecodeFailure)
  | .rows rs =>
    let st := (rs.drop 1).foldl bulk_row_step (db, 0, 0)
    (st.1, .counts st.2.1 st.2.2)

/-- A small populated store used for concrete checks: one class, two students,
and attendance marks for "S1" in three periods (present in two). -/
def exampleDb : DB :=
  ⟨[⟨1, "CS", "CSE"⟩],
   [⟨"S1", "Alice", 1⟩, ⟨"S2", "Bob", 1⟩],
   [⟨1, 1, "Math", "2025-12-15", 1⟩, ⟨2, 1, "Math", "2025-12-15", 2⟩,
    ⟨3, 1, "Math", "2025-12-16", 1⟩],
   4,
   [⟨1, "S1", 1⟩, ⟨2, "S1", 1⟩, ⟨3, "S1", 0⟩]⟩

/-- A concrete bulk-import upload: a header row, five well-formed new
students, one row duplicating the existing reg_no "S1", and one row with
only two fields. -/
def exampleCsv : FileContent :=
  .rows
    [["reg_no", "student_name", "class_id"],
     ["S3", "Carol", "1"],
     ["S4", "Dan", "1"],
     ["S5", "Eve", "1"],
     ["S6", "Frank", "1"],
     ["S7", "Grace", "1"],
     ["S1", "Dup", "1"],
     ["S8", "Harry"]]

end AttendanceApp

namespace AttendanceApp

/-- C3: if a class with the given `class_id` already exists, `add_class`
fails with `DuplicateKey` and the store — including the pre-existing class
row — is unchanged (the rejected insert has no side effect). -/
theorem add_class_duplicate_unchanged (db : DB) (cid : Int) (cname dept : String)
    (h : ∃ c ∈ db.classes, c.class_id = cid) :
    add_class db cid cname dept = (db, .error .DuplicateKey) := by
  obtain ⟨c, hc, he⟩ := h
  have hany : db.classes.any (fun c => c.class_id == cid) = true :=
    List.any_eq_true.mpr ⟨c, hc, by simp [he]⟩
  simp [add_class, hany]

/-- Witness for `add_class_duplicate_unchanged` at a concrete store. -/
theorem add_class_duplicate_unchanged_witness :
    add_class exampleDb 1 "Other" "EEE" = (exampleDb, .error .DuplicateKey) :=
  add_class_duplicate_unchanged exampleDb 1 "Other" "EEE"
    ⟨⟨1, "CS", "CSE"⟩, by decide, rfl⟩

/-- The id returned by `create_period` is the counter value. -/
theorem create_period_snd (db : DB) (cid : Int) (subj pdate : String) (pnum : Int) :
    (create_period db cid subj pdate pnum).2 = db.nextPeriodId := rfl

/-- Each `create_period` call bumps the AUTOINCREMENT counter by one. -/
theorem create_period_fst_counter (db : DB) (cid : Int) (subj pdate : String) (pnum : Int) :
    (create_period db cid subj pdate pnum).1.nextPeriodId = db.nextPeriodId + 1 := rfl

/-- Every period id handed out by a run of `create_periods` is at least the
counter value at the start of the run. -/
theorem create_periods_id_lower_bound (ins : List PeriodInput) :
    ∀ (db : DB), ∀ x ∈ (create_periods db ins).2, db.nextPeriodId ≤ x := by
  induction ins with
  | nil => intro db x hx; simp [create_periods] at hx
  | cons i is ih =>
    intro db x hx
    simp only [create_periods, List.mem_cons] at hx
    rcases hx with rfl | hx
    · rw [create_period_snd]
    · have h := ih _ x hx
      rw [create_period_fst_counter] at h
      omega

/-- C5: a sequence of N successful `create_period` calls returns N period ids
that are strictly increasing in call order (hence pairwise distinct): the
AUTOINCREMENT counter hands back a fresh, larger id on every call. -/
theorem create_periods_ids_strictly_increasing (db : DB) (ins : List PeriodInput) :
    ((create_periods db ins).2).Pairwise (· < ·) ∧
    ((create_periods db ins).2).length = ins.length := by
  induction ins generalizing db with
  | nil => simp [create_periods]
  | cons i is ih =>
    simp only [create_periods, List.pairwise_cons, List.length_cons]
    refine ⟨⟨?_, (ih _).1⟩, by simpa using (ih _).2⟩
    intro x hx
    have h := create_periods_id_lower_bound is _ x hx
    rw [create_period_fst_counter] at h
    rw [create_period_snd]
    omega

/-- C6: `add_student` performs no referential check on `class_id` (SQLite
foreign keys are not enabled), so inserting a student with a fresh `reg_no`
whose `class_id` names no existing class succeeds and appends the orphaned
row. -/
theorem add_student_orphan_succeeds (db : DB) (rn sname : String) (cid : Int)
    (hfresh : ∀ s ∈ db.students, s.reg_no ≠ rn)
    (horphan : ∀ c ∈ db.classes, c.class_id ≠ cid) :
    add_student db rn sname cid =
      ({ db with students := db.students ++ [⟨rn, sname, cid⟩] }, .ok ()) := by
  have hany : db.students.any (fun s => s.reg_no == rn) = false := by
    rw [List.any_eq_false]
    intro s hs
    simpa using hfresh s hs
  simp [add_student, hany]

/-- Witness for `add_student_orphan_succeeds`: class 99 does not exist in
`exampleDb`, yet the insert goes through. -/
theorem add_student_orphan_succeeds_witness :
    add_student exampleDb "S9" "Zoe" 99 =
      ({ exampleDb with students := exampleDb.students ++ [⟨"S9", "Zoe", 99⟩] }, .ok ()) :=
  add_student_orphan_succeeds exampleDb "S9" "Zoe" 99 (by decide) (by decide)

/-- C7: `get_students` with a `class_id` filter returns exactly the students
whose `class_id` equals the filter (sound and complete), and with no filter
it returns the whole table. -/
theorem get_students_filter_exact (db : DB) (cid : Int) :
    (∀ s : Student, s ∈ get_students db (some cid) ↔ s ∈ db.students ∧ s.class_id = cid) ∧
    get_students db none = db.students := by
  refine ⟨fun s => ?_, rfl⟩
  simp [get_students, List.mem_filter]

/-- Witness for `get_students_filter_exact` at a concrete store. -/
theorem get_students_filter_exact_witness :
    (⟨"S1", "Alice", 1⟩ : Student) ∈ get_students exampleDb (some 1) ∧
    get_students exampleDb none = exampleDb.students :=
  ⟨((get_students_filter_exact exampleDb 1).1 ⟨"S1", "Alice", 1⟩).mpr ⟨by decide, rfl⟩,
   (get_students_filter_exact exampleDb 1).2⟩

/-- Filtering for rows satisfying `p` after removing exactly those rows
yields nothing. -/
theorem filter_of_filter_not {α : Type} (p : α → Bool) (l : List α) :
    (l.filter (fun a => !(p a))).filter p = [] := by
  rw [List.filter_filter]
  simp [List.filter_eq_nil_iff]

/-- After an upsert for key `(pid, rn)`, exactly one attendance row carries
that key, and it holds the upserted value. -/
theorem filter_isPair_upsert_self (atts : List AttRecord) (pid : Int) (rn : String) (v : Int) :
    (upsert_attendance atts pid rn v).filter (isPair pid rn) = [⟨pid, rn, v⟩] := by
  rw [upsert_attendance, List.filter_append, filter_of_filter_not]
  simp [isPair]

/-- An upsert for a different student's key leaves the rows with key
`(pid, rn)` untouched. -/
theorem filter_isPair_upsert_other (atts : List AttRecord) (pid : Int) (rn rn' : String)
    (v : Int) (h : rn' ≠ rn) :
    (upsert_attendance atts pid rn' v).filter (isPair pid rn) =
      atts.filter (isPair pid rn) := by
  rw [upsert_attendance, List.filter_append]
  have h1 : List.filter (isPair pid rn) [⟨pid, rn', v⟩] = [] := by
    simp [isPair, fun he : rn' = rn => h he]
  rw [h1, List.append_nil, List.filter_filter]
  apply List.filter_congr
  intro a _
  cases hr : (a.reg_no == rn) with
  | false => simp [isPair, hr]
  | true =>
    have hrn : a.reg_no = rn := by simpa using hr
    have hr' : (a.reg_no == rn') = false := by
      rw [hrn]
      simp only [beq_eq_false_iff_ne]
      exact fun he => h he.symm
    simp [isPair, hr, hr']

/-- The loop of `mark_attendance`, traced per student key: if it completes,
the rows for key `(pid, rn)` end as `[⟨pid, rn, v⟩]` where `v` is the last
well-formed value written for `rn`, and are untouched when the batch never
mentions `rn`. -/
theorem applyMarks_filter (pid : Int) (rn : String) :
    ∀ (items : List MarkItem) (atts atts' : List AttRecord),
      applyMarks pid items atts = some atts' →
      (∀ v, lastMark items rn = some v →
        atts'.filter (isPair pid rn) = [⟨pid, rn, v⟩]) ∧
      (lastMark items rn = none →
        atts'.filter (isPair pid rn) = atts.filter (isPair pid rn)) := by
  intro items
  induction items with
  | nil =>
    intro atts atts' h
    rw [applyMarks] at h
    obtain rfl : atts = atts' := by simpa using h
    exact ⟨fun v hv => by simp [lastMark] at hv, fun _ => rfl⟩
  | cons it rest ih =>
    intro atts atts' h
    cases it with
    | malformed => rw [applyMarks] at h; simp at h
    | good r v =>
      rw [applyMarks] at h
      have IH := ih (upsert_attendance atts pid r v) atts' h
      constructor
      · intro w hw
        rw [lastMark] at hw
        cases hrest : lastMark rest rn with
        | some w' =>
          rw [hrest] at hw
          have hww : w' = w := by simpa using hw
          rw [← hww]
          exact IH.1 w' hrest
        | none =>
          rw [hrest] at hw
          cases hr : (r == rn) with
          | false => rw [hr] at hw; simp at hw
          | true =>
            rw [hr] at hw
            obtain rfl : v = w := by simpa using hw
            obtain rfl : r = rn := by simpa using hr
            rw [IH.2 hrest, filter_isPair_upsert_self]
      · intro hn
        rw [lastMark] at hn
        cases hrest : lastMark rest rn with
        | some w' => rw [hrest] at hn; simp at hn
        | none =>
          rw [hrest] at hn
          cases hr : (r == rn) with
          | true => rw [hr] at hn; simp at hn
          | false =>
            have hne : r ≠ rn := by simpa using hr
            rw [IH.2 hrest, filter_isPair_upsert_other _ _ _ _ _ hne]

/-- On a fully well-formed batch the loop of `mark_attendance` completes. -/
theorem applyMarks_of_all_good (pid : Int) :
    ∀ (items : List MarkItem) (atts : List AttRecord),
      items.all MarkItem.isGood = true →
      ∃ atts', applyMarks pid items atts = some atts' := by
  intro items
  induction items with
  | nil => intro atts _; exact ⟨atts, rfl⟩
  | cons it rest ih =>
    intro atts hall
    cases it with
    | malformed => simp [MarkItem.isGood] at hall
    | good r v =>
      have : rest.all MarkItem.isGood = true := by simpa [MarkItem.isGood] using hall
      obtain ⟨atts', h⟩ := ih (upsert_attendance atts pid r v) this
      exact ⟨atts', by rw [applyMarks]; exact h⟩

/-- On a batch containing a malformed item the loop of `mark_attendance`
raises before the commit. -/
theorem applyMarks_of_malformed (pid : Int) :
    ∀ (items : List MarkItem) (atts : List AttRecord),
      items.all MarkItem.isGood = false →
      applyMarks pid items atts = none := by
  intro items
  induction items with
  | nil => intro atts h; simp at h
  | cons it rest ih =>
    intro atts hall
    cases it with
    | malformed => rw [applyMarks]
    | good r v =>
      have : rest.all MarkItem.isGood = false := by simpa [MarkItem.isGood] using hall
      rw [applyMarks]
      exact ih _ this

/-- C2: after two successive successful `mark_attendance` calls whose batches
both cover `(pid, rn)`, the store holds exactly one attendance row for that
key, and its `is_present` is the value from the most recent call (the last
well-formed item for `rn` in the second batch) — re-marking replaces, never
duplicates. -/
theorem mark_attendance_idempotent_upsert (db : DB) (pid : Int)
    (items1 items2 : List MarkItem) (rn : String) (v1 v2 : Int)
    (hg1 : items1.all MarkItem.isGood = true) (hg2 : items2.all MarkItem.isGood = true)
    (h1 : lastMark items1 rn = some v1) (h2 : lastMark items2 rn = some v2) :
    ((mark_attendance (mark_attendance db pid items1).1 pid items2).1).attendance.filter
      (isPair pid rn) = [⟨pid, rn, v2⟩] := by
  obtain ⟨a1, ha1⟩ := applyMarks_of_all_good pid items1 db.attendance hg1
  have e1 : mark_attendance db pid items1 = ({ db with attendance := a1 }, true) := by
    rw [mark_attendance, ha1]
  obtain ⟨a2, ha2⟩ := applyMarks_of_all_good pid items2 a1 hg2
  have e2 : mark_attendance { db with attendance := a1 } pid items2 =
      ({ db with attendance := a2 }, true) := by
    rw [mark_attendance]
    simp only
    rw [ha2]
  rw [e1]
  simp only
  rw [e2]
  simp only
  exact (applyMarks_filter pid rn items2 a1 a2 ha2).1 v2 h2

/-- Witness for `mark_attendance_idempotent_upsert`: mark "S1" present then
absent in period 1; the final state holds the single absent row. -/
theorem mark_attendance_idempotent_upsert_witness :
    ((mark_attendance (mark_attendance emptyDB 1 [.good "S1" 1]).1 1
        [.good "S1" 0]).1).attendance.filter (isPair 1 "S1") = [⟨1, "S1", 0⟩] :=
  mark_attendance_idempotent_upsert emptyDB 1 [.good "S1" 1] [.good "S1" 0] "S1" 1 0
    rfl rfl rfl rfl

/-- C4 (counterexample): a batch whose first pair is well formed and whose
second is malformed leaves NO attendance row at all — the upsert applied
before the failure is not durable, because the single transaction is never
committed.  This refutes the claim that previously applied pairs survive a
mid-batch failure. -/
theorem mark_attendance_partial_batch_rolled_back :
    (mark_attendance emptyDB 1 [.good "S1" 1, .malformed]).1.attendance = [] ∧
    (⟨1, "S1", 1⟩ : AttRecord) ∉
      (mark_attendance emptyDB 1 [.good "S1" 1, .malformed]).1.attendance := by
  refine ⟨rfl, ?_⟩
  intro h
  simp [mark_attendance, applyMarks, emptyDB] at h

/-- C4 (amended): `mark_attendance` runs the whole batch inside one implicit
transaction committed only after the loop: a fully well-formed batch applies
every upsert in order and succeeds, while a batch containing any malformed
pair fails and leaves the store exactly unchanged (all its upserts,
including those applied before the failure, are rolled back). -/
theorem mark_attendance_batch_commit (db : DB) (pid : Int) (items : List MarkItem) :
    (items.all MarkItem.isGood = true → (mark_attendance db pid items).2 = true) ∧
    (items.all MarkItem.isGood = false → mark_attendance db pid items = (db, false)) := by
  constructor
  · intro hg
    obtain ⟨a, ha⟩ := applyMarks_of_all_good pid items db.attendance hg
    rw [mark_attendance, ha]
  · intro hb
    rw [mark_attendance, applyMarks_of_malformed pid items db.attendance hb]

/-- Witness for `mark_attendance_batch_commit` at concrete batches. -/
theorem mark_attendance_batch_commit_witness :
    (mark_attendance emptyDB 1 [.good "S1" 1]).2 = true ∧
    mark_attendance emptyDB 1 [.good "S1" 1, .malformed] = (emptyDB, false) :=
  ⟨(mark_attendance_batch_commit emptyDB 1 [.good "S1" 1]).1 rfl,
   (mark_attendance_batch_commit emptyDB 1 [.good "S1" 1, .malformed]).2 rfl⟩

/-- C9: bulk import of an undecodable payload fails with a single
`DecodeFailure` before the database is touched: the store is returned
unchanged and no rows are added, no counts reported. -/
theorem bulk_import_undecodable (db : DB) :
    bulk_add_students db .undecodable = (db, .failed .DecodeFailure) := rfl

/-- Rounding half-to-even never rounds below the floor. -/
theorem floor_le_roundHalfEven (q : ℚ) : ⌊q⌋ ≤ roundHalfEven q := by
  rw [roundHalfEven]
  split_ifs <;> omega

/-- Rounding half-to-even never rounds above the ceiling. -/
theorem roundHalfEven_le_ceil (q : ℚ) : roundHalfEven q ≤ ⌈q⌉ := by
  have hfc : ⌊q⌋ ≤ ⌈q⌉ := Int.floor_le_ceil q
  have key : (⌊q⌋ : ℚ) < q → ⌊q⌋ + 1 ≤ ⌈q⌉ := by
    intro hlt
    have h2 : (⌊q⌋ : ℚ) < (⌈q⌉ : ℚ) := lt_of_lt_of_le hlt (Int.le_ceil q)
    have h3 : ⌊q⌋ < ⌈q⌉ := by exact_mod_cast h2
    omega
  have hfl : (⌊q⌋ : ℚ) ≤ q := Int.floor_le q
  rw [roundHalfEven]
  split_ifs with h1 h2 h3
  · exact hfc
  · exact key (by linarith)
  · exact hfc
  · exact key (by linarith)

/-- Rounding half-to-even preserves nonnegativity. -/
theorem roundHalfEven_nonneg (q : ℚ) (h : 0 ≤ q) : 0 ≤ roundHalfEven q :=
  le_trans (Int.floor_nonneg.mpr h) (floor_le_roundHalfEven q)

/-- Rounding half-to-even respects integer upper bounds. -/
theorem roundHalfEven_le (q : ℚ) (n : ℤ) (h : q ≤ (n : ℚ)) : roundHalfEven q ≤ n :=
  le_trans (roundHalfEven_le_ceil q) (Int.ceil_le.mpr h)

/-- Rounding a nonnegative value with `round(x, 2)` stays nonnegative. -/
theorem round2_nonneg (q : ℚ) (h : 0 ≤ q) : 0 ≤ round2 q := by
  rw [round2]
  have h1 : (0 : ℤ) ≤ roundHalfEven (q * 100) := roundHalfEven_nonneg _ (by positivity)
  have h2 : (0 : ℚ) ≤ (roundHalfEven (q * 100) : ℚ) := by exact_mod_cast h1
  positivity

/-- Rounding a value at most 100 with `round(x, 2)` stays at most 100. -/
theorem round2_le_hundred (q : ℚ) (h : q ≤ 100) : round2 q ≤ 100 := by
  rw [round2]
  have h1 : q * 100 ≤ ((10000 : ℤ) : ℚ) := by push_cast; linarith
  have h2 : roundHalfEven (q * 100) ≤ 10000 := roundHalfEven_le _ _ h1
  rw [div_le_iff₀ (by norm_num : (0 : ℚ) < 100)]
  have h3 : ((roundHalfEven (q * 100) : ℤ) : ℚ) ≤ ((10000 : ℤ) : ℚ) := by exact_mod_cast h2
  push_cast at h3 ⊢
  linarith

/-- C1: for an existing student the attendance query succeeds (even with zero
attendance records) and reports `total_classes` = number of attendance rows
for the reg_no, `attended_classes` = number of those with `is_present = 1`,
and `attendance_percentage` = `round(attended * 100 / total, 2)` when
`total > 0` and exactly `0.0` when `total = 0`; concretely, a student with no
records yields `(0, 0, 0.0)` and a student present in 2 of 3 marked periods
yields `66.67`. -/
theorem getAttendance_formula :
    (∀ (db : DB) (rn : String) (s : Student),
        db.students.find? (fun t => t.reg_no == rn) = some s →
        ∃ out : AttendanceSummary,
          get_overall_attendance db rn = .ok out ∧
          out.total_classes = (db.attendance.filter (fun a => a.reg_no == rn)).length ∧
          out.attended_classes =
            ((db.attendance.filter (fun a => a.reg_no == rn)).filter
              (fun a => a.is_present == 1)).length ∧
          (out.total_classes = 0 → out.attendance_percentage = 0) ∧
          (0 < out.total_classes →
            out.attendance_percentage =
              round2 ((out.attended_classes : ℚ) * 100 / (out.total_classes : ℚ)))) ∧
    get_overall_attendance exampleDb "S2" = .ok ⟨"S2", "Bob", 0, 0, 0⟩ ∧
    get_overall_attendance exampleDb "S1" = .ok ⟨"S1", "Alice", 3, 2, 6667 / 100⟩ := by
  refine ⟨?_, rfl, ?_⟩
  · intro db rn s hs
    refine ⟨⟨s.reg_no, s.student_name,
        (db.attendance.filter (fun a => a.reg_no == rn)).length,
        ((db.attendance.filter (fun a => a.reg_no == rn)).filter
          (fun a => a.is_present == 1)).length,
        if 0 < (db.attendance.filter (fun a => a.reg_no == rn)).length then
          round2 (((((db.attendance.filter (fun a => a.reg_no == rn)).filter
              (fun a => a.is_present == 1)).length : ℕ) : ℚ) * 100 /
            (((db.attendance.filter (fun a => a.reg_no == rn)).length : ℕ) : ℚ))
        else 0⟩, ?_, rfl, rfl, ?_, ?_⟩
    · simp only [get_overall_attendance, hs]
    · intro h0
      have h0' : (db.attendance.filter (fun a => a.reg_no == rn)).length = 0 := h0
      simp only [h0']
      norm_num
    · intro hpos
      simp only
      rw [if_pos hpos]
  · have h : get_overall_attendance exampleDb "S1" =
        .ok ⟨"S1", "Alice", 3, 2, round2 (((2 : ℕ) : ℚ) * 100 / ((3 : ℕ) : ℚ))⟩ := rfl
    rw [h]
    norm_num [round2, roundHalfEven]

/-- Witness for `getAttendance_formula` at the concrete store. -/
theorem getAttendance_formula_witness :
    ∃ out : AttendanceSummary,
      get_overall_attendance exampleDb "S1" = .ok out ∧
      out.total_classes = (exampleDb.attendance.filter (fun a => a.reg_no == "S1")).length ∧
      out.attended_classes =
        ((exampleDb.attendance.filter (fun a => a.reg_no == "S1")).filter
          (fun a => a.is_present == 1)).length ∧
      (out.total_classes = 0 → out.attendance_percentage = 0) ∧
      (0 < out.total_classes →
        out.attendance_percentage =
          round2 ((out.attended_classes : ℚ) * 100 / (out.total_classes : ℚ))) :=
  getAttendance_formula.1 exampleDb "S1" ⟨"S1", "Alice", 1⟩ rfl

/-- C10: a successful attendance lookup satisfies
`attended_classes ≤ total_classes` (each record adds one to the total and at
most one to the attended count, counting only `is_present = 1`) and
`0 ≤ attendance_percentage ≤ 100`. -/
theorem attendance_summary_bounds (db : DB) (rn : String) (out : AttendanceSummary)
    (h : get_overall_attendance db rn = .ok out) :
    out.attended_classes ≤ out.total_classes ∧
    0 ≤ out.attendance_percentage ∧ out.attendance_percentage ≤ 100 := by
  cases hf : db.students.find? (fun s => s.reg_no == rn) with
  | none =>
    simp only [get_overall_attendance, hf] at h
    exact Except.noConfusion h
  | some s =>
    simp only [get_overall_attendance, hf, Except.ok.injEq] at h
    subst h
    refine ⟨List.length_filter_le _ _, ?_, ?_⟩
    · by_cases hpos :
        0 < (db.attendance.filter (fun a => a.reg_no == rn)).length
      · simp only [if_pos hpos]
        exact round2_nonneg _ (by positivity)
      · simp only [if_neg hpos]
        exact le_refl (0 : ℚ)
    · by_cases hpos :
        0 < (db.attendance.filter (fun a => a.reg_no == rn)).length
      · simp only [if_pos hpos]
        apply round2_le_hundred
        have hA : ((db.attendance.filter (fun a => a.reg_no == rn)).filter
            (fun a => a.is_present == 1)).length ≤
            (db.attendance.filter (fun a => a.reg_no == rn)).length :=
          List.length_filter_le _ _
        have hT : (0 : ℚ) < ((db.attendance.filter (fun a => a.reg_no == rn)).length : ℚ) := by
          exact_mod_cast hpos
        rw [div_le_iff₀ hT]
        have hA' : (((db.attendance.filter (fun a => a.reg_no == rn)).filter
            (fun a => a.is_present == 1)).length : ℚ) ≤
            ((db.attendance.filter (fun a => a.reg_no == rn)).length : ℚ) := by
          exact_mod_cast hA
        linarith
      · simp only [if_neg hpos]
        norm_num

/-- Witness for `attendance_summary_bounds` at the concrete store. -/
theorem attendance_summary_bounds_witness :
    (⟨"S2", "Bob", 0, 0, 0⟩ : AttendanceSummary).attended_classes ≤
      (⟨"S2", "Bob", 0, 0, 0⟩ : AttendanceSummary).total_classes ∧
    0 ≤ (⟨"S2", "Bob", 0, 0, 0⟩ : AttendanceSummary).attendance_percentage ∧
    (⟨"S2", "Bob", 0, 0, 0⟩ : AttendanceSummary).attendance_percentage ≤ 100 :=
  attendance_summary_bounds exampleDb "S2" ⟨"S2", "Bob", 0, 0, 0⟩ rfl

/-- C8: per-row accounting of bulk import — a data row with fewer than 3
fields is dropped silently (neither added nor skipped); a row whose
`class_id` fails integer parsing, or whose `reg_no` duplicates an existing
student (from the table or from earlier rows of the same batch), increments
`skipped` without aborting; every other row is inserted and increments
`added`; and concretely 5 well-formed rows plus 1 duplicate reg_no plus 1
two-field row yield `added = 5, skipped = 1`. -/
theorem bulk_import_counts :
    (∀ (st : DB × Nat × Nat) (row : List String), row.length < 3 →
      bulk_row_step st row = st) ∧
    (∀ (st : DB × Nat × Nat) (row : List String), 3 ≤ row.length →
      pyInt (pyStrip (row.getD 2 "")) = none →
      bulk_row_step st row = (st.1, st.2.1, st.2.2 + 1)) ∧
    (∀ (st : DB × Nat × Nat) (row : List String) (cid : Int), 3 ≤ row.length →
      pyInt (pyStrip (row.getD 2 "")) = some cid →
      (∃ s ∈ st.1.students, s.reg_no = pyStrip (row.getD 0 "")) →
      bulk_row_step st row = (st.1, st.2.1, st.2.2 + 1)) ∧
    (∀ (st : DB × Nat × Nat) (row : List String) (cid : Int), 3 ≤ row.length →
      pyInt (pyStrip (row.getD 2 "")) = some cid →
      (∀ s ∈ st.1.students, s.reg_no ≠ pyStrip (row.getD 0 "")) →
      bulk_row_step st row =
        ({ st.1 with students := st.1.students ++
            [⟨pyStrip (row.getD 0 ""), pyStrip (row.getD 1 ""), cid⟩] },
         st.2.1 + 1, st.2.2)) ∧
    (bulk_add_students exampleDb exampleCsv).2 = .counts 5 1 := by
  refine ⟨?_, ?_, ?_, ?_, rfl⟩
  · intro st row hlen
    rw [bulk_row_step, if_pos hlen]
  · intro st row hlen hp
    rw [bulk_row_step, if_neg (by omega : ¬row.length < 3)]
    simp only [hp]
  · intro st row cid hlen hp hdup
    obtain ⟨s, hs, he⟩ := hdup
    have hany : st.1.students.any (fun s => s.reg_no == pyStrip (row.getD 0 "")) = true :=
      List.any_eq_true.mpr ⟨s, hs, by simp [he]⟩
    rw [bulk_row_step, if_neg (by omega : ¬row.length < 3)]
    simp only [hp, hany, if_true]
  · intro st row cid hlen hp hfresh
    have hany : st.1.students.any (fun s => s.reg_no == pyStrip (row.getD 0 "")) = false := by
      rw [List.any_eq_false]
      intro s hs
      simpa using hfresh s hs
    rw [bulk_row_step, if_neg (by omega : ¬row.length < 3)]
    simp only [hp, hany]
    norm_num

/-- Witness for `bulk_import_counts` on concrete rows: a two-field row is
dropped, an unparsable `class_id` is skipped, a duplicate reg_no is
skipped. -/
theorem bulk_import_counts_witness :
    bulk_row_step (exampleDb, 0, 0) ["S8", "Harry"] = (exampleDb, 0, 0) ∧
    bulk_row_step (exampleDb, 0, 0) ["S9", "Ivy", "abc"] = (exampleDb, 0, 1) ∧
    bulk_row_step (exampleDb, 0, 0) ["S1", "Dup", "1"] = (exampleDb, 0, 1) :=
  ⟨bulk_import_counts.1 (exampleDb, 0, 0) ["S8", "Harry"] (by decide),
   bulk_import_counts.2.1 (exampleDb, 0, 0) ["S9", "Ivy", "abc"] (by decide) rfl,
   bulk_import_counts.2.2.1 (exampleDb, 0, 0) ["S1", "Dup", "1"] 1 (by decide) rfl
     ⟨⟨"S1", "Alice", 1⟩, by decide, rfl⟩⟩

end AttendanceApp
